import Mathlib

/-!
Verification development for the deployment-exporter program.

The Go program (main.go) tracks Kubernetes deployments: it derives a
readiness verdict from replica counts, maintains a per-key map
`downtimeStart : map[string]time.Time` of in-flight downtimes, and writes
Prometheus gauges/counters on every processed deployment.  Below, the
relevant parts are shallowly embedded: time is modelled as Nat
nanoseconds (Go `time.Time`/`time.Duration` arithmetic on int64
nanoseconds; all observation times used here are non-negative), gauge
values as exact rationals (the float64 written by the program, with
rounding abstracted away), and the metric sink as a list of emitted
intents in program order.
-/

namespace DeploymentExporter

/-- One `appsv1.DeploymentCondition`: its `Type` and `Status` strings. -/
structure DeployCondition where
  condType : String
  condStatus : String
deriving DecidableEq

/-- Per-container resource requests/limits, as Go quantities: CPU in
millicores (`MilliValue`), memory in bytes (`Value`). -/
structure ContainerResources where
  cpuRequestMilli : Nat
  memRequestBytes : Nat
  cpuLimitMilli : Nat
  memLimitBytes : Nat
deriving DecidableEq

/-- A pod as seen by `collectResourceMetrics`: just its containers. -/
structure Pod where
  containers : List ContainerResources
deriving DecidableEq

/-- Per-container usage from the metrics server. -/
structure ContainerUsage where
  cpuUsageMilli : Nat
  memUsageBytes : Nat
deriving DecidableEq

/-- One `PodMetrics` item: usage of each container. -/
structure PodMetricItem where
  containers : List ContainerUsage
deriving DecidableEq

/-- The fields of an `appsv1.Deployment` read by `processDeployment`.
`specReplicas` is `Spec.Replicas` (a nullable int32 pointer in Go);
replica counts are int32, generation counters int64, all modelled as Int.
`creationUnix` is `CreationTimestamp.Unix()`. -/
structure Deployment where
  ns : String
  name : String
  specReplicas : Option Int
  readyReplicas : Int
  availableReplicas : Int
  unavailableReplicas : Int
  updatedReplicas : Int
  creationUnix : Int
  generation : Int
  observedGeneration : Int
  conditions : List DeployCondition
deriving DecidableEq

/-- The tracker state `downtimeStart : map[string]time.Time`, keyed by
the string `ns + "/" + name`, holding the time (ns) downtime began. -/
structure Store where
  entries : List (String × Nat)
deriving DecidableEq

/-- Map read `m[key]`. -/
def Store.get (s : Store) (k : String) : Option Nat :=
  (s.entries.find? fun p => p.1 == k).map Prod.snd

/-- Map write `m[key] = v` (replaces any entry for the key). -/
def Store.put (s : Store) (k : String) (v : Nat) : Store :=
  ⟨(k, v) :: s.entries.filter fun p => p.1 != k⟩

/-- Map delete `delete(m, key)`. -/
def Store.remove (s : Store) (k : String) : Store :=
  ⟨s.entries.filter fun p => p.1 != k⟩

/-- The freshly-made tracker map (`make(map[string]time.Time)`). -/
def emptyStore : Store := ⟨[]⟩

/-- The registered metric vector a write goes to, one constructor per
global gauge/counter variable of the program. -/
inductive Metric where
  | downtimeDuration
  | restartTotal
  | status
  | heartbeat
  | recoveryTimeMs
  | downtimeStart
  | conditionStatus
  | replicasDesired
  | replicasReady
  | replicasAvailable
  | replicasUnavailable
  | replicasUpdated
  | creationTime
  | generation
  | observedGeneration
  | availability
  | cpuUsage
  | memoryUsage
  | cpuRequest
  | memoryRequest
  | cpuLimit
  | memoryLimit
  | cpuUsagePercent
  | memoryUsagePercent
deriving DecidableEq

/-- The Prometheus name each metric vector is registered under. -/
def metricName : Metric → String
  | Metric.downtimeDuration => "k8s_deployment_downtime_duration_seconds"
  | Metric.restartTotal => "k8s_deployment_restart_total"
  | Metric.status => "k8s_deployment_status"
  | Metric.heartbeat => "k8s_deployment_heartbeat_timestamp_seconds"
  | Metric.recoveryTimeMs => "k8s_deployment_recovery_time_milliseconds"
  | Metric.downtimeStart => "k8s_deployment_downtime_start_timestamp_seconds"
  | Metric.conditionStatus => "k8s_deployment_condition_status"
  | Metric.replicasDesired => "k8s_deployment_replicas_desired"
  | Metric.replicasReady => "k8s_deployment_replicas_ready"
  | Metric.replicasAvailable => "k8s_deployment_replicas_available"
  | Metric.replicasUnavailable => "k8s_deployment_replicas_unavailable"
  | Metric.replicasUpdated => "k8s_deployment_replicas_updated"
  | Metric.creationTime => "k8s_deployment_created_timestamp_seconds"
  | Metric.generation => "k8s_deployment_metadata_generation"
  | Metric.observedGeneration => "k8s_deployment_status_observed_generation"
  | Metric.availability => "k8s_deployment_availability_ratio"
  | Metric.cpuUsage => "k8s_deployment_cpu_usage_millicores"
  | Metric.memoryUsage => "k8s_deployment_memory_usage_mebibytes"
  | Metric.cpuRequest => "k8s_deployment_cpu_request_millicores"
  | Metric.memoryRequest => "k8s_deployment_memory_request_mebibytes"
  | Metric.cpuLimit => "k8s_deployment_cpu_limit_millicores"
  | Metric.memoryLimit => "k8s_deployment_memory_limit_mebibytes"
  | Metric.cpuUsagePercent => "k8s_deployment_cpu_usage_percent"
  | Metric.memoryUsagePercent => "k8s_deployment_memory_usage_percent"

/-- One write to the metric sink: `WithLabelValues(...).Set(v)` or
`WithLabelValues(...).Inc()`. -/
inductive MetricIntent where
  | setGauge (m : Metric) (labels : List String) (value : ℚ)
  | incCounter (m : Metric) (labels : List String)
deriving DecidableEq

/-- The metric vector an intent writes to. -/
def intentMetric : MetricIntent → Metric
  | MetricIntent.setGauge m _ _ => m
  | MetricIntent.incCounter m _ => m

/-- All intents of an emission that target a given metric vector. -/
def metricFilter (m : Metric) (out : List MetricIntent) : List MetricIntent :=
  out.filter fun i => decide (intentMetric i = m)

/-- `now.Unix()`: nanoseconds since the epoch to whole seconds. -/
def unixSeconds (t : Nat) : Nat := t / 1000000000

/-- The condition-status switch: "True" to 1, "False" to 0, default -1. -/
def conditionValue (st : String) : ℚ :=
  if st = "True" then 1 else if st = "False" then 0 else -1

/-- `desiredReplicas`: `*Spec.Replicas`, or 0 when the pointer is nil. -/
def desiredOf (d : Deployment) : Int := d.specReplicas.getD 0

/-- The readiness check of `processDeployment`: ready replicas equal the
desired count, the desired count is positive, and none are unavailable. -/
def isReady (d : Deployment) : Bool :=
  d.readyReplicas == desiredOf d
    && decide (0 < desiredOf d)
    && d.unavailableReplicas == 0

/-- The tracker-map key `ns + "/" + name`. -/
def deployKey (d : Deployment) : String := d.ns ++ "/" ++ d.name

/-- Sum of non-zero container CPU requests (millicores) over the pods. -/
def sumCpuRequests (pods : List Pod) : Nat :=
  pods.foldl
    (fun acc p => p.containers.foldl
      (fun a c => if c.cpuRequestMilli != 0 then a + c.cpuRequestMilli else a) acc)
    0

/-- Sum of non-zero container memory requests (bytes) over the pods. -/
def sumMemRequests (pods : List Pod) : Nat :=
  pods.foldl
    (fun acc p => p.containers.foldl
      (fun a c => if c.memRequestBytes != 0 then a + c.memRequestBytes else a) acc)
    0

/-- Sum of non-zero container CPU limits (millicores) over the pods. -/
def sumCpuLimits (pods : List Pod) : Nat :=
  pods.foldl
    (fun acc p => p.containers.foldl
      (fun a c => if c.cpuLimitMilli != 0 then a + c.cpuLimitMilli else a) acc)
    0

/-- Sum of non-zero container memory limits (bytes) over the pods. -/
def sumMemLimits (pods : List Pod) : Nat :=
  pods.foldl
    (fun acc p => p.containers.foldl
      (fun a c => if c.memLimitBytes != 0 then a + c.memLimitBytes else a) acc)
    0

/-- Sum of container CPU usage (millicores) over the pod metrics. -/
def sumCpuUsage (pms : List PodMetricItem) : Nat :=
  pms.foldl
    (fun acc m => m.containers.foldl (fun a c => a + c.cpuUsageMilli) acc)
    0

/-- Sum of container memory usage (bytes) over the pod metrics. -/
def sumMemUsage (pms : List PodMetricItem) : Nat :=
  pms.foldl
    (fun acc m => m.containers.foldl (fun a c => a + c.memUsageBytes) acc)
    0

/-- `collectResourceMetrics`: list the deployment's pods (first argument
is the outcome of that call); on failure return with no writes.
Otherwise sum requests/limits, write the four request/limit gauges, and,
when the metrics client exists (`metricsAvailable`) and its pod-metrics
list succeeds, write the two usage gauges and the guarded percent
gauges. -/
def collectResourceMetrics (ns name : String)
    (podsResult : Except Unit (List Pod)) (metricsAvailable : Bool)
    (podMetricsResult : Except Unit (List PodMetricItem)) :
    List MetricIntent :=
  match podsResult with
  | Except.error _ => []
  | Except.ok pods =>
    let cpuReq := sumCpuRequests pods
    let memReq := sumMemRequests pods
    let cpuLim := sumCpuLimits pods
    let memLim := sumMemLimits pods
    let reqLim : List MetricIntent :=
      [MetricIntent.setGauge Metric.cpuRequest [ns, name] (cpuReq : ℚ),
       MetricIntent.setGauge Metric.memoryRequest [ns, name] ((memReq : ℚ) / 1024 / 1024),
       MetricIntent.setGauge Metric.cpuLimit [ns, name] (cpuLim : ℚ),
       MetricIntent.setGauge Metric.memoryLimit [ns, name] ((memLim : ℚ) / 1024 / 1024)]
    if metricsAvailable then
      match podMetricsResult with
      | Except.error _ => reqLim
      | Except.ok pms =>
        let cpuUse := sumCpuUsage pms
        let memUse := sumMemUsage pms
        reqLim ++
          [MetricIntent.setGauge Metric.cpuUsage [ns, name] (cpuUse : ℚ),
           MetricIntent.setGauge Metric.memoryUsage [ns, name] ((memUse : ℚ) / 1024 / 1024)] ++
          (if 0 < cpuReq then
            [MetricIntent.setGauge Metric.cpuUsagePercent [ns, name]
              ((cpuUse : ℚ) / (cpuReq : ℚ) * 100)]
           else []) ++
          (if 0 < memReq then
            [MetricIntent.setGauge Metric.memoryUsagePercent [ns, name]
              ((memUse : ℚ) / (memReq : ℚ) * 100)]
           else [])
    else reqLim

/-- The unconditional gauge writes at the top of `processDeployment`:
heartbeat, metadata, replica counts (desired only when `Spec.Replicas`
is non-nil), and the availability ratio (also only when non-nil, value
ready/desired guarded to 0 for a zero desired count, with the literal
counts as labels). -/
def preIntents (now : Nat) (d : Deployment) : List MetricIntent :=
  [MetricIntent.setGauge Metric.heartbeat [d.ns, d.name] ((unixSeconds now : Nat) : ℚ),
   MetricIntent.setGauge Metric.creationTime [d.ns, d.name] (d.creationUnix : ℚ),
   MetricIntent.setGauge Metric.generation [d.ns, d.name] (d.generation : ℚ),
   MetricIntent.setGauge Metric.observedGeneration [d.ns, d.name] (d.observedGeneration : ℚ)] ++
  (match d.specReplicas with
   | some r => [MetricIntent.setGauge Metric.replicasDesired [d.ns, d.name] (r : ℚ)]
   | none => []) ++
  [MetricIntent.setGauge Metric.replicasReady [d.ns, d.name] (d.readyReplicas : ℚ),
   MetricIntent.setGauge Metric.replicasAvailable [d.ns, d.name] (d.availableReplicas : ℚ),
   MetricIntent.setGauge Metric.replicasUnavailable [d.ns, d.name] (d.unavailableReplicas : ℚ),
   MetricIntent.setGauge Metric.replicasUpdated [d.ns, d.name] (d.updatedReplicas : ℚ)] ++
  (match d.specReplicas with
   | some r =>
     [MetricIntent.setGauge Metric.availability
       [d.ns, d.name, toString d.readyReplicas, toString r]
       (if 0 < r then (d.readyReplicas : ℚ) / (r : ℚ) else 0)]
   | none => [])

/-- The per-condition gauge writes: one per condition entry, labelled by
condition type and status string, valued by `conditionValue`. -/
def conditionIntents (d : Deployment) : List MetricIntent :=
  d.conditions.map fun c =>
    MetricIntent.setGauge Metric.conditionStatus
      [d.ns, d.name, c.condType, c.condStatus] (conditionValue c.condStatus)

/-- The status/downtime tail of `processDeployment`: write the status
gauge; when ready and a downtime record exists, write the downtime
duration (seconds), the recovery time (truncated whole milliseconds),
bump the restart counter, and delete the record; when not ready and no
record exists, store `now` and write the downtime-start gauge. -/
def statusStep (now : Nat) (d : Deployment) (store : Store) :
    Store × List MetricIntent :=
  if isReady d then
    match store.get (deployKey d) with
    | some t0 =>
      let diff := now - t0
      (store.remove (deployKey d),
       [MetricIntent.setGauge Metric.status [d.ns, d.name] 1,
        MetricIntent.setGauge Metric.downtimeDuration [d.ns, d.name]
          ((diff : ℚ) / 1000000000),
        MetricIntent.setGauge Metric.recoveryTimeMs [d.ns, d.name]
          ((diff / 1000000 : Nat) : ℚ),
        MetricIntent.incCounter Metric.restartTotal [d.ns, d.name]])
    | none =>
      (store, [MetricIntent.setGauge Metric.status [d.ns, d.name] 1])
  else
    match store.get (deployKey d) with
    | some _ =>
      (store, [MetricIntent.setGauge Metric.status [d.ns, d.name] 0])
    | none =>
      (store.put (deployKey d) now,
       [MetricIntent.setGauge Metric.status [d.ns, d.name] 0,
        MetricIntent.setGauge Metric.downtimeStart [d.ns, d.name]
          ((unixSeconds now : Nat) : ℚ)])

/-- `processDeployment`: the new tracker map and the full list of sink
writes, in program order (heartbeat/metadata/replica/ratio gauges, then
`collectResourceMetrics`, then condition gauges, then the status and
downtime accounting). -/
def processDeployment (now : Nat) (d : Deployment)
    (podsResult : Except Unit (List Pod)) (metricsAvailable : Bool)
    (podMetricsResult : Except Unit (List PodMetricItem)) (store : Store) :
    Store × List MetricIntent :=
  let rs := collectResourceMetrics d.ns d.name podsResult metricsAvailable podMetricsResult
  let si := statusStep now d store
  (si.1, preIntents now d ++ rs ++ conditionIntents d ++ si.2)

instance instDecEqExcept {ε α : Type} [DecidableEq ε] [DecidableEq α] :
    DecidableEq (Except ε α) := fun a b =>
  match a, b with
  | Except.error x, Except.error y =>
    if h : x = y then Decidable.isTrue (congrArg Except.error h)
    else Decidable.isFalse (fun hc => h (Except.error.inj hc))
  | Except.error _, Except.ok _ => Decidable.isFalse (fun hc => Except.noConfusion hc)
  | Except.ok _, Except.error _ => Decidable.isFalse (fun hc => Except.noConfusion hc)
  | Except.ok x, Except.ok y =>
    if h : x = y then Decidable.isTrue (congrArg Except.ok h)
    else Decidable.isFalse (fun hc => h (Except.ok.inj hc))

/-- One observation pushed through `processDeployment` by either feeder:
the wall-clock time of the call plus everything read from the outside
world during the call (the deployment object and the outcomes of the
pod-list and pod-metrics-list calls made by `collectResourceMetrics`). -/
structure Obs where
  now : Nat
  d : Deployment
  podsResult : Except Unit (List Pod)
  metricsAvailable : Bool
  podMetricsResult : Except Unit (List PodMetricItem)
deriving DecidableEq

/-- The tracker-map key of an observation. -/
def obsKey (o : Obs) : String := deployKey o.d

/-- Run `processDeployment` on each observation in order, threading the
tracker map and concatenating the emitted intents. -/
def runTrace : List Obs → Store → Store × List MetricIntent
  | [], s => (s, [])
  | o :: rest, s =>
    let st := processDeployment o.now o.d o.podsResult o.metricsAvailable o.podMetricsResult s
    let st2 := runTrace rest st.1
    (st2.1, st.2 ++ st2.2)

/-- What one observation does to the record stored for key `k`,
expressed on the record alone: a ready observation of `k` clears it, a
not-ready observation of `k` sets it to the observation time only when
absent, observations of other keys leave it alone. -/
def recordStep (k : String) (acc : Option Nat) (dk : String)
    (ready : Bool) (tnow : Nat) : Option Nat :=
  if dk == k then
    if ready then none
    else
      match acc with
      | some t => some t
      | none => some tnow
  else acc

/-- Modelled from the spec: the record the store should hold for key `k`
after a trace, per the state/record correspondence there (created at the
first not-ready observation while absent, destroyed at a ready
observation, absent for a never-seen key). -/
def specRecord (k : String) (trace : List Obs) : Option Nat :=
  trace.foldl (fun acc o => recordStep k acc (obsKey o) (isReady o.d) o.now) none

/-- Modelled from the spec: the most recent readiness verdict computed
for key `k` along a trace (`none` for a never-seen key). -/
def lastVerdict (k : String) (trace : List Obs) : Option Bool :=
  trace.foldl (fun acc o => if obsKey o == k then some (isReady o.d) else acc) none

/-- The keys of the tracker map. -/
def storeKeys (s : Store) : List String := s.entries.map Prod.fst

/-- Count of Down-to-Up transitions in a verdict sequence, starting from
the given down/up state (`true` means currently down). -/
def downUpCount : Bool → List Bool → Nat
  | _, [] => 0
  | down, v :: rest =>
    (if down && v then 1 else 0) + downUpCount (if v then false else true) rest

/-- Whether an intent is a restart-counter bump for the entity whose
tracker key is `k`. -/
def isRestartFor (k : String) : MetricIntent → Bool
  | MetricIntent.incCounter m labels =>
    decide (m = Metric.restartTotal)
      && (match labels with
          | [a, b] => a ++ "/" ++ b == k
          | _ => false)
  | MetricIntent.setGauge _ _ _ => false

/-- An event received on the watch result channel: a transport error
event (`watch.Error`), a payload that fails the `*appsv1.Deployment`
type assertion, or a deployment observation. -/
inductive WatchEvent where
  | errorEvent
  | badObject
  | deployEvent (o : Obs)
deriving DecidableEq

/-- Whether a received event is a `watch.Error` event. -/
def isErrorEvent : WatchEvent → Bool
  | WatchEvent.errorEvent => true
  | _ => false

/-- What a loop iteration decides to do next. -/
inductive LoopOutcome where
  | retryAfter (secs : Nat)
  | terminate
deriving DecidableEq

/-- The inner event loop of `watchDeployments`: process events in order,
skip payloads that fail the type assertion, and break out of the loop at
the first error event, leaving later events unread. -/
def watchEvents : List WatchEvent → Store → Store × List MetricIntent
  | [], s => (s, [])
  | WatchEvent.errorEvent :: _, s => (s, [])
  | WatchEvent.badObject :: rest, s => watchEvents rest s
  | WatchEvent.deployEvent o :: rest, s =>
    let st := processDeployment o.now o.d o.podsResult o.metricsAvailable o.podMetricsResult s
    let st2 := watchEvents rest st.1
    (st2.1, st.2 ++ st2.2)

/-- One iteration of the outer `for` loop of `watchDeployments`: when
the watch call fails, sleep 5 seconds and retry; otherwise consume the
event stream until it errors or closes, then sleep 5 seconds and retry.
No path terminates the loop. -/
def watchIteration (openOk : Bool) (events : List WatchEvent) (s : Store) :
    Store × List MetricIntent × LoopOutcome :=
  if openOk then
    let st := watchEvents events s
    (st.1, st.2, LoopOutcome.retryAfter 5)
  else (s, [], LoopOutcome.retryAfter 5)

/-- The outcome of one tick of `periodicScrape`. -/
structure PollTickResult where
  store : Store
  intents : List MetricIntent
  loggedError : Bool
  nextTickAfter : Nat
deriving DecidableEq

/-- One tick of `periodicScrape` with tick interval `interval`: when the
deployment list call fails, log it and do nothing else; otherwise run
`processDeployment` on every listed deployment.  Either way the ticker
fires again after the same fixed interval. -/
def pollTick (interval : Nat) (listResult : Except Unit (List Obs))
    (s : Store) : PollTickResult :=
  match listResult with
  | Except.error _ => ⟨s, [], true, interval⟩
  | Except.ok items =>
    let st := runTrace items s
    ⟨st.1, st.2, false, interval⟩

/-- The metric sink (the Prometheus registry): last written value per
metric vector and label set, counters accumulating from 0. -/
structure SinkState where
  cells : List ((Metric × List String) × ℚ)
deriving DecidableEq

/-- Current value of a sink cell. -/
def sinkValue (st : SinkState) (m : Metric) (labels : List String) : Option ℚ :=
  (st.cells.find? fun c => c.1 == (m, labels)).map Prod.snd

/-- Record one intent in the sink: `Set` overwrites the cell, `Inc` adds
1 to it (creating it at 1 when absent). -/
def applyIntent (st : SinkState) (i : MetricIntent) : SinkState :=
  match i with
  | MetricIntent.setGauge m labels v =>
    ⟨((m, labels), v) :: st.cells.filter fun c => c.1 != (m, labels)⟩
  | MetricIntent.incCounter m labels =>
    match (st.cells.find? fun c => c.1 == (m, labels)).map Prod.snd with
    | some v => ⟨((m, labels), v + 1) :: st.cells.filter fun c => c.1 != (m, labels)⟩
    | none => ⟨((m, labels), 1) :: st.cells.filter fun c => c.1 != (m, labels)⟩

/-- Record a list of intents in order. -/
def applyIntents (st : SinkState) (l : List MetricIntent) : SinkState :=
  l.foldl applyIntent st

/-- Whether a metric vector belongs to `collectResourceMetrics`. -/
def isResourceMetric : Metric → Bool
  | Metric.cpuRequest => true
  | Metric.memoryRequest => true
  | Metric.cpuLimit => true
  | Metric.memoryLimit => true
  | Metric.cpuUsage => true
  | Metric.memoryUsage => true
  | Metric.cpuUsagePercent => true
  | Metric.memoryUsagePercent => true
  | _ => false

/-- Whether a metric vector belongs to the status/downtime tail of
`processDeployment`. -/
def isStatusSideMetric : Metric → Bool
  | Metric.status => true
  | Metric.downtimeDuration => true
  | Metric.recoveryTimeMs => true
  | Metric.downtimeStart => true
  | Metric.restartTotal => true
  | _ => false

/-- Whether a metric vector belongs to the unconditional gauge block at
the top of `processDeployment`. -/
def isPreMetric : Metric → Bool
  | Metric.heartbeat => true
  | Metric.creationTime => true
  | Metric.generation => true
  | Metric.observedGeneration => true
  | Metric.replicasDesired => true
  | Metric.replicasReady => true
  | Metric.replicasAvailable => true
  | Metric.replicasUnavailable => true
  | Metric.replicasUpdated => true
  | Metric.availability => true
  | _ => false

/-- The map read of the not-ready branch of `processDeployment`
(`_, exists := t.downtimeStart[key]`), split out at the goroutine
interleaving point: the tracker map is a plain Go map shared by the
watch and poll goroutines with no mutex, so this read and the write
below are separate, unsynchronized steps. Returns whether no record
exists. -/
def downtimeCheck (s : Store) (k : String) : Bool := (s.get k).isNone

/-- The conditional map write and gauge write of the not-ready branch
(`t.downtimeStart[key] = now; deploymentDowntimeStart...Set(...)`),
performed on the basis of an earlier, possibly stale `downtimeCheck`
read. -/
def downtimeCommit (s : Store) (ns name : String) (now : Nat)
    (wasAbsent : Bool) : Store × List MetricIntent :=
  if wasAbsent then
    (s.put (ns ++ "/" ++ name) now,
     [MetricIntent.setGauge Metric.downtimeStart [ns, name]
       ((unixSeconds now : Nat) : ℚ)])
  else (s, [])

/-- Sample entity scaled to zero: desired 0, ready 0, unavailable 0. -/
def sampleZero : Deployment :=
  { ns := "prod", name := "api", specReplicas := some 0, readyReplicas := 0,
    availableReplicas := 0, unavailableReplicas := 0, updatedReplicas := 0,
    creationUnix := 0, generation := 1, observedGeneration := 1,
    conditions := [] }

/-- Sample entity observed down: desired 3, ready 0, unavailable 3. -/
def sampleDown : Deployment :=
  { ns := "prod", name := "api", specReplicas := some 3, readyReplicas := 0,
    availableReplicas := 0, unavailableReplicas := 3, updatedReplicas := 3,
    creationUnix := 0, generation := 1, observedGeneration := 1,
    conditions := [] }

/-- Sample entity observed healthy: desired 3, ready 3, unavailable 0. -/
def sampleUp : Deployment :=
  { ns := "prod", name := "api", specReplicas := some 3, readyReplicas := 3,
    availableReplicas := 3, unavailableReplicas := 0, updatedReplicas := 3,
    creationUnix := 0, generation := 1, observedGeneration := 1,
    conditions := [⟨"Available", "True"⟩] }

/-- Sample entity with a nil `Spec.Replicas` pointer. -/
def sampleNoSpec : Deployment :=
  { ns := "prod", name := "api", specReplicas := none, readyReplicas := 0,
    availableReplicas := 0, unavailableReplicas := 0, updatedReplicas := 0,
    creationUnix := 0, generation := 1, observedGeneration := 1,
    conditions := [] }

lemma find_filter_self (l : List (String × Nat)) (k : String) :
    (l.filter fun p => p.1 != k).find? (fun p => p.1 == k) = none := by
  induction l with
  | nil => rfl
  | cons a l ih =>
    by_cases h : a.1 = k
    · simp [List.filter_cons, h, ih]
    · simp [List.filter_cons, List.find?_cons, h, ih]

lemma find_filter_other (l : List (String × Nat)) (k k2 : String) (h : k2 ≠ k) :
    (l.filter fun p => p.1 != k).find? (fun p => p.1 == k2)
      = l.find? (fun p => p.1 == k2) := by
  have hkk2 : (k == k2) = false := by
    simp
    exact fun hh => h hh.symm
  induction l with
  | nil => rfl
  | cons a l ih =>
    by_cases ha : a.1 = k
    · simp [List.filter_cons, ha, List.find?_cons, hkk2, ih]
    · by_cases hb : a.1 = k2
      · simp [List.filter_cons, ha, List.find?_cons, hb, h]
      · simp [List.filter_cons, ha, List.find?_cons, hb, ih]

lemma Store.get_put_self (s : Store) (k : String) (v : Nat) :
    (s.put k v).get k = some v := by
  simp [Store.put, Store.get, List.find?_cons]

lemma Store.get_put_other (s : Store) (k k2 : String) (v : Nat) (h : k2 ≠ k) :
    (s.put k v).get k2 = s.get k2 := by
  have hk : (k == k2) = false := by
    simp
    exact fun hh => h hh.symm
  simp [Store.put, Store.get, List.find?_cons, hk, find_filter_other s.entries k k2 h]

lemma Store.get_remove_self (s : Store) (k : String) :
    (s.remove k).get k = none := by
  simp [Store.remove, Store.get, find_filter_self]

lemma Store.get_remove_other (s : Store) (k k2 : String) (h : k2 ≠ k) :
    (s.remove k).get k2 = s.get k2 := by
  simp [Store.remove, Store.get, find_filter_other s.entries k k2 h]

lemma emptyStore_get (k : String) : emptyStore.get k = none := rfl

lemma keys_nodup_put (s : Store) (k : String) (v : Nat)
    (h : (storeKeys s).Nodup) : (storeKeys (s.put k v)).Nodup := by
  have hsub : List.Sublist ((s.entries.filter fun p => p.1 != k).map Prod.fst)
      (s.entries.map Prod.fst) :=
    List.Sublist.map Prod.fst (List.filter_sublist _)
  have h2 : ((s.entries.filter fun p => p.1 != k).map Prod.fst).Nodup :=
    List.Nodup.sublist hsub h
  show (k :: (s.entries.filter fun p => p.1 != k).map Prod.fst).Nodup
  refine List.nodup_cons.mpr ⟨?_, h2⟩
  intro hmem
  rcases List.mem_map.mp hmem with ⟨p, hp, hfst⟩
  rcases List.mem_filter.mp hp with ⟨_, hne⟩
  simp [hfst] at hne

lemma keys_nodup_remove (s : Store) (k : String)
    (h : (storeKeys s).Nodup) : (storeKeys (s.remove k)).Nodup := by
  have hsub : List.Sublist ((s.entries.filter fun p => p.1 != k).map Prod.fst)
      (s.entries.map Prod.fst) :=
    List.Sublist.map Prod.fst (List.filter_sublist _)
  exact List.Nodup.sublist hsub h

lemma statusStep_fst_get (now : Nat) (d : Deployment) (s : Store) (k : String) :
    ((statusStep now d s).1).get k
      = recordStep k (s.get k) (deployKey d) (isReady d) now := by
  by_cases hk : deployKey d = k
  · subst hk
    cases hr : isReady d <;> cases hg : s.get (deployKey d) <;>
      simp [statusStep, recordStep, hr, hg, Store.get_remove_self, Store.get_put_self]
  · have hb : (deployKey d == k) = false := by
      simp
      exact hk
    have hk2 : k ≠ deployKey d := fun hh => hk hh.symm
    cases hr : isReady d <;> cases hg : s.get (deployKey d) <;>
      simp [statusStep, recordStep, hr, hg, hb,
        Store.get_remove_other s (deployKey d) k hk2,
        Store.get_put_other s (deployKey d) k now hk2]

lemma statusStep_fst_nodup (now : Nat) (d : Deployment) (s : Store)
    (h : (storeKeys s).Nodup) : (storeKeys (statusStep now d s).1).Nodup := by
  cases hr : isReady d <;> cases hg : s.get (deployKey d) <;>
    simp [statusStep, hr, hg, keys_nodup_put, keys_nodup_remove, h]

lemma processDeployment_fst (now : Nat) (d : Deployment)
    (pr : Except Unit (List Pod)) (ma : Bool)
    (pmr : Except Unit (List PodMetricItem)) (s : Store) :
    (processDeployment now d pr ma pmr s).1 = (statusStep now d s).1 := rfl

lemma runTrace_fst_get (tr : List Obs) (s : Store) (k : String) :
    ((runTrace tr s).1).get k
      = tr.foldl (fun acc o => recordStep k acc (obsKey o) (isReady o.d) o.now)
          (s.get k) := by
  induction tr generalizing s with
  | nil => rfl
  | cons o rest ih =>
    show ((runTrace rest (processDeployment o.now o.d o.podsResult
        o.metricsAvailable o.podMetricsResult s).1).1).get k = _
    rw [processDeployment_fst, ih, List.foldl_cons, statusStep_fst_get]
    rfl

lemma runTrace_fst_nodup (tr : List Obs) (s : Store)
    (h : (storeKeys s).Nodup) : (storeKeys (runTrace tr s).1).Nodup := by
  induction tr generalizing s with
  | nil => exact h
  | cons o rest ih =>
    show (storeKeys (runTrace rest (processDeployment o.now o.d o.podsResult
        o.metricsAvailable o.podMetricsResult s).1).1).Nodup
    rw [processDeployment_fst]
    exact ih _ (statusStep_fst_nodup o.now o.d s h)

lemma record_verdict_aux (k : String) (tr : List Obs) :
    ∀ (accR : Option Nat) (accV : Option Bool),
      (accR.isSome = true ↔ accV = some false) →
      ((tr.foldl (fun acc o => recordStep k acc (obsKey o) (isReady o.d) o.now)
          accR).isSome = true
        ↔ tr.foldl (fun acc o => if obsKey o == k then some (isReady o.d) else acc)
            accV = some false) := by
  induction tr with
  | nil => intro accR accV h; simpa using h
  | cons o rest ih =>
    intro accR accV h
    simp only [List.foldl_cons]
    apply ih
    by_cases hk : obsKey o = k
    · cases hr : isReady o.d
      · cases accR <;> simp [recordStep, hk, hr]
      · simp [recordStep, hk, hr]
    · have hb : (obsKey o == k) = false := by
        simp
        exact hk
      simpa [recordStep, hb] using h

lemma metricFilter_append (m : Metric) (a b : List MetricIntent) :
    metricFilter m (a ++ b) = metricFilter m a ++ metricFilter m b := by
  simp [metricFilter, List.filter_append]

lemma metricFilter_processDeployment (m : Metric) (now : Nat) (d : Deployment)
    (pr : Except Unit (List Pod)) (ma : Bool)
    (pmr : Except Unit (List PodMetricItem)) (s : Store) :
    metricFilter m (processDeployment now d pr ma pmr s).2
      = metricFilter m (preIntents now d)
        ++ metricFilter m (collectResourceMetrics d.ns d.name pr ma pmr)
        ++ metricFilter m (conditionIntents d)
        ++ metricFilter m (statusStep now d s).2 := by
  simp [processDeployment, metricFilter, List.filter_append]

lemma collect_mem (ns name : String) (pr : Except Unit (List Pod)) (ma : Bool)
    (pmr : Except Unit (List PodMetricItem)) :
    ∀ i ∈ collectResourceMetrics ns name pr ma pmr,
      isResourceMetric (intentMetric i) = true := by
  intro i hi
  cases pr with
  | error e => simp [collectResourceMetrics] at hi
  | ok pods =>
    cases ma with
    | false =>
      simp only [collectResourceMetrics, Bool.false_eq_true, if_false,
        List.mem_cons, List.not_mem_nil, or_false] at hi
      rcases hi with h | h | h | h <;> subst h <;> rfl
    | true =>
      cases pmr with
      | error e =>
        simp only [collectResourceMetrics, if_true, List.mem_cons,
          List.not_mem_nil, or_false] at hi
        rcases hi with h | h | h | h <;> subst h <;> rfl
      | ok pms =>
        simp only [collectResourceMetrics, if_true, List.mem_append] at hi
        rcases hi with ((h | h) | h) | h
        · simp only [List.mem_cons, List.not_mem_nil, or_false] at h
          rcases h with h | h | h | h <;> subst h <;> rfl
        · simp only [List.mem_cons, List.not_mem_nil, or_false] at h
          rcases h with h | h <;> subst h <;> rfl
        · split at h
          · simp only [List.mem_cons, List.not_mem_nil, or_false] at h
            subst h; rfl
          · simp at h
        · split at h
          · simp only [List.mem_cons, List.not_mem_nil, or_false] at h
            subst h; rfl
          · simp at h

lemma metricFilter_collect (m : Metric) (hm : isResourceMetric m = false)
    (ns name : String) (pr : Except Unit (List Pod)) (ma : Bool)
    (pmr : Except Unit (List PodMetricItem)) :
    metricFilter m (collectResourceMetrics ns name pr ma pmr) = [] := by
  refine List.filter_eq_nil_iff.mpr ?_
  intro i hi
  have h := collect_mem ns name pr ma pmr i hi
  simp only [decide_eq_true_eq]
  intro he
  rw [he, hm] at h
  cases h

lemma metricFilter_conditions_ne (m : Metric) (d : Deployment)
    (hm : m ≠ Metric.conditionStatus) :
    metricFilter m (conditionIntents d) = [] := by
  refine List.filter_eq_nil_iff.mpr ?_
  intro i hi
  rcases List.mem_map.mp hi with ⟨c, _, hc⟩
  subst hc
  simp only [intentMetric, decide_eq_true_eq]
  exact fun hh => hm hh.symm

lemma metricFilter_conditions_self (d : Deployment) :
    metricFilter Metric.conditionStatus (conditionIntents d) = conditionIntents d := by
  refine List.filter_eq_self.mpr ?_
  intro i hi
  rcases List.mem_map.mp hi with ⟨c, _, hc⟩
  subst hc
  simp [intentMetric]

lemma metricFilter_status_statusStep (now : Nat) (d : Deployment) (s : Store) :
    metricFilter Metric.status (statusStep now d s).2
      = [MetricIntent.setGauge Metric.status [d.ns, d.name]
          (if isReady d then 1 else 0)] := by
  cases hr : isReady d <;> cases hg : s.get (deployKey d) <;>
    simp [statusStep, hr, hg, metricFilter, intentMetric]

lemma metricFilter_status_pre (now : Nat) (d : Deployment) :
    metricFilter Metric.status (preIntents now d) = [] := by
  rcases hd : d.specReplicas with _ | r <;>
    simp [preIntents, metricFilter, intentMetric, hd]

lemma pre_mem (now : Nat) (d : Deployment) :
    ∀ i ∈ preIntents now d, isPreMetric (intentMetric i) = true := by
  rcases hd : d.specReplicas with _ | r <;>
    simp [preIntents, hd, isPreMetric, intentMetric]

lemma metricFilter_pre_ne (m : Metric) (hm : isPreMetric m = false)
    (now : Nat) (d : Deployment) :
    metricFilter m (preIntents now d) = [] := by
  refine List.filter_eq_nil_iff.mpr ?_
  intro i hi
  have h := pre_mem now d i hi
  simp only [decide_eq_true_eq]
  intro he
  rw [he, hm] at h
  cases h

lemma statusStep_mem (now : Nat) (d : Deployment) (s : Store) :
    ∀ i ∈ (statusStep now d s).2, isStatusSideMetric (intentMetric i) = true := by
  cases hr : isReady d <;> cases hg : s.get (deployKey d) <;>
    simp [statusStep, hr, hg, isStatusSideMetric, intentMetric]

lemma metricFilter_statusStep_ne (m : Metric) (hm : isStatusSideMetric m = false)
    (now : Nat) (d : Deployment) (s : Store) :
    metricFilter m (statusStep now d s).2 = [] := by
  refine List.filter_eq_nil_iff.mpr ?_
  intro i hi
  have h := statusStep_mem now d s i hi
  simp only [decide_eq_true_eq]
  intro he
  rw [he, hm] at h
  cases h

lemma statusStep_ready_some (now : Nat) (d : Deployment) (s : Store) (t0 : Nat)
    (hr : isReady d = true) (hg : s.get (deployKey d) = some t0) :
    statusStep now d s
      = (s.remove (deployKey d),
         [MetricIntent.setGauge Metric.status [d.ns, d.name] 1,
          MetricIntent.setGauge Metric.downtimeDuration [d.ns, d.name]
            (((now - t0 : Nat) : ℚ) / 1000000000),
          MetricIntent.setGauge Metric.recoveryTimeMs [d.ns, d.name]
            (((now - t0) / 1000000 : Nat) : ℚ),
          MetricIntent.incCounter Metric.restartTotal [d.ns, d.name]]) := by
  simp [statusStep, hr, hg]

lemma statusStep_ready_none (now : Nat) (d : Deployment) (s : Store)
    (hr : isReady d = true) (hg : s.get (deployKey d) = none) :
    statusStep now d s
      = (s, [MetricIntent.setGauge Metric.status [d.ns, d.name] 1]) := by
  simp [statusStep, hr, hg]

lemma statusStep_notready_some (now : Nat) (d : Deployment) (s : Store) (t0 : Nat)
    (hr : isReady d = false) (hg : s.get (deployKey d) = some t0) :
    statusStep now d s
      = (s, [MetricIntent.setGauge Metric.status [d.ns, d.name] 0]) := by
  simp [statusStep, hr, hg]

lemma statusStep_notready_none (now : Nat) (d : Deployment) (s : Store)
    (hr : isReady d = false) (hg : s.get (deployKey d) = none) :
    statusStep now d s
      = (s.put (deployKey d) now,
         [MetricIntent.setGauge Metric.status [d.ns, d.name] 0,
          MetricIntent.setGauge Metric.downtimeStart [d.ns, d.name]
            ((unixSeconds now : Nat) : ℚ)]) := by
  simp [statusStep, hr, hg]

lemma isReady_iff (d : Deployment) :
    isReady d = true
      ↔ (d.readyReplicas = d.specReplicas.getD 0
          ∧ 0 < d.specReplicas.getD 0
          ∧ d.unavailableReplicas = 0) := by
  simp [isReady, desiredOf, Bool.and_eq_true, and_assoc]

lemma metricFilter_status_processDeployment (now : Nat) (d : Deployment)
    (pr : Except Unit (List Pod)) (ma : Bool)
    (pmr : Except Unit (List PodMetricItem)) (s : Store) :
    metricFilter Metric.status (processDeployment now d pr ma pmr s).2
      = [MetricIntent.setGauge Metric.status [d.ns, d.name]
          (if isReady d then 1 else 0)] := by
  rw [metricFilter_processDeployment, metricFilter_status_pre,
    metricFilter_collect Metric.status rfl,
    metricFilter_conditions_ne Metric.status d (by decide),
    metricFilter_status_statusStep]
  simp

/-- C1: on every processed deployment the readiness verdict holds iff
readyReplicas equals the desired count, the desired count (0 when the
spec pointer is nil) is positive, and unavailableReplicas is 0; the
status gauge is written exactly once, with 1 iff the verdict holds; and
with a desired count of 0 the verdict is false and the gauge gets 0. -/
theorem readiness_verdict_and_status_gauge (now : Nat) (d : Deployment)
    (pr : Except Unit (List Pod)) (ma : Bool)
    (pmr : Except Unit (List PodMetricItem)) (s : Store) :
    (isReady d = true
      ↔ (d.readyReplicas = d.specReplicas.getD 0
          ∧ 0 < d.specReplicas.getD 0
          ∧ d.unavailableReplicas = 0))
    ∧ metricFilter Metric.status (processDeployment now d pr ma pmr s).2
        = [MetricIntent.setGauge Metric.status [d.ns, d.name]
            (if isReady d then 1 else 0)]
    ∧ (d.specReplicas.getD 0 = 0 →
        isReady d = false
        ∧ metricFilter Metric.status (processDeployment now d pr ma pmr s).2
            = [MetricIntent.setGauge Metric.status [d.ns, d.name] 0]) := by
  refine ⟨isReady_iff d, metricFilter_status_processDeployment now d pr ma pmr s, ?_⟩
  intro h0
  have hf : isReady d = false := by
    rw [Bool.eq_false_iff]
    intro ht
    rcases (isReady_iff d).mp ht with ⟨_, hpos, _⟩
    rw [h0] at hpos
    exact lt_irrefl 0 hpos
  refine ⟨hf, ?_⟩
  rw [metricFilter_status_processDeployment now d pr ma pmr s, hf]
  simp

/-- C1 witness: the scaled-to-zero sample entity has desired count 0,
its verdict is false, and the status gauge written for it is 0 even
though ready and unavailable replicas are both 0. -/
theorem readiness_verdict_and_status_gauge_witness :
    sampleZero.specReplicas.getD 0 = 0
    ∧ sampleZero.readyReplicas = 0
    ∧ sampleZero.unavailableReplicas = 0
    ∧ isReady sampleZero = false
    ∧ metricFilter Metric.status
        (processDeployment 1000000000 sampleZero (Except.ok []) true
          (Except.ok []) emptyStore).2
        = [MetricIntent.setGauge Metric.status
            [sampleZero.ns, sampleZero.name] 0] := by
  have h := (readiness_verdict_and_status_gauge 1000000000 sampleZero
    (Except.ok []) true (Except.ok []) emptyStore).2.2 (by decide)
  exact ⟨by decide, by decide, by decide, h.1, h.2⟩

/-- C2: starting from the fresh tracker map, after any trace of
observations the map has at most one entry per key, the entry stored for
any key is exactly the spec-side record (created at the first not-ready
observation of a down run, destroyed on a ready observation), and an
entry is present for a key iff the most recent verdict computed for that
key was not-ready; a never-seen key has none. -/
theorem store_record_invariant (trace : List Obs) (k : String) :
    (storeKeys (runTrace trace emptyStore).1).Nodup
    ∧ ((runTrace trace emptyStore).1).get k = specRecord k trace
    ∧ ((((runTrace trace emptyStore).1).get k).isSome = true
        ↔ lastVerdict k trace = some false) := by
  have hget : ((runTrace trace emptyStore).1).get k = specRecord k trace := by
    rw [runTrace_fst_get]
    rfl
  refine ⟨runTrace_fst_nodup trace emptyStore (by simp [storeKeys, emptyStore]),
    hget, ?_⟩
  rw [hget]
  have h := record_verdict_aux k trace none none (by simp)
  simpa [specRecord, lastVerdict] using h

lemma deployKey_congr (d1 d2 : Deployment) (hns : d2.ns = d1.ns)
    (hname : d2.name = d1.name) : deployKey d2 = deployKey d1 := by
  simp [deployKey, hns, hname]

/-- C3: if an entity with no stored record is observed not ready at time
t1 (creating the record with downSince t1) and next observed ready at
time t2, the second call emits recovery-time-milliseconds equal to
(t2 - t1) truncated to whole milliseconds, downtime-duration-seconds
equal to (t2 - t1) in seconds, bumps the restart counter exactly once,
and deletes the record. -/
theorem recovery_roundtrip (t1 t2 : Nat) (d1 d2 : Deployment)
    (pr1 pr2 : Except Unit (List Pod)) (ma1 ma2 : Bool)
    (pmr1 pmr2 : Except Unit (List PodMetricItem)) (s : Store)
    (hns : d2.ns = d1.ns) (hname : d2.name = d1.name)
    (h0 : s.get (deployKey d1) = none)
    (hr1 : isReady d1 = false) (hr2 : isReady d2 = true)
    (_hle : t1 ≤ t2) :
    ((processDeployment t1 d1 pr1 ma1 pmr1 s).1).get (deployKey d1) = some t1
    ∧ metricFilter Metric.recoveryTimeMs
        (processDeployment t2 d2 pr2 ma2 pmr2
          (processDeployment t1 d1 pr1 ma1 pmr1 s).1).2
        = [MetricIntent.setGauge Metric.recoveryTimeMs [d2.ns, d2.name]
            (((t2 - t1) / 1000000 : Nat) : ℚ)]
    ∧ metricFilter Metric.downtimeDuration
        (processDeployment t2 d2 pr2 ma2 pmr2
          (processDeployment t1 d1 pr1 ma1 pmr1 s).1).2
        = [MetricIntent.setGauge Metric.downtimeDuration [d2.ns, d2.name]
            (((t2 - t1 : Nat) : ℚ) / 1000000000)]
    ∧ metricFilter Metric.restartTotal
        (processDeployment t2 d2 pr2 ma2 pmr2
          (processDeployment t1 d1 pr1 ma1 pmr1 s).1).2
        = [MetricIntent.incCounter Metric.restartTotal [d2.ns, d2.name]]
    ∧ ((processDeployment t2 d2 pr2 ma2 pmr2
          (processDeployment t1 d1 pr1 ma1 pmr1 s).1).1).get (deployKey d1)
        = none := by
  have hkey : deployKey d2 = deployKey d1 := deployKey_congr d1 d2 hns hname
  have hp1 : (processDeployment t1 d1 pr1 ma1 pmr1 s).1
      = s.put (deployKey d1) t1 := by
    rw [processDeployment_fst, statusStep_notready_none t1 d1 s hr1 h0]
  have hget1 : ((processDeployment t1 d1 pr1 ma1 pmr1 s).1).get (deployKey d1)
      = some t1 := by
    rw [hp1, Store.get_put_self]
  have hget2 : ((processDeployment t1 d1 pr1 ma1 pmr1 s).1).get (deployKey d2)
      = some t1 := by
    rw [hkey]
    exact hget1
  have hstep2 := statusStep_ready_some t2 d2
    (processDeployment t1 d1 pr1 ma1 pmr1 s).1 t1 hr2 hget2
  refine ⟨hget1, ?_, ?_, ?_, ?_⟩
  · rw [metricFilter_processDeployment, metricFilter_pre_ne Metric.recoveryTimeMs rfl,
      metricFilter_collect Metric.recoveryTimeMs rfl,
      metricFilter_conditions_ne Metric.recoveryTimeMs d2 (by decide), hstep2]
    simp [metricFilter, intentMetric]
  · rw [metricFilter_processDeployment, metricFilter_pre_ne Metric.downtimeDuration rfl,
      metricFilter_collect Metric.downtimeDuration rfl,
      metricFilter_conditions_ne Metric.downtimeDuration d2 (by decide), hstep2]
    simp [metricFilter, intentMetric]
  · rw [metricFilter_processDeployment, metricFilter_pre_ne Metric.restartTotal rfl,
      metricFilter_collect Metric.restartTotal rfl,
      metricFilter_conditions_ne Metric.restartTotal d2 (by decide), hstep2]
    simp [metricFilter, intentMetric]
  · rw [processDeployment_fst, hstep2]
    show ((processDeployment t1 d1 pr1 ma1 pmr1 s).1.remove (deployKey d2)).get
      (deployKey d1) = none
    rw [hkey, Store.get_remove_self]

/-- C3 witness: the sample entity goes down at 10s and recovers at
12.5s; the second call emits 2500 recovery milliseconds, 2.5 downtime
seconds, one restart bump, and clears the record. -/
theorem recovery_roundtrip_witness :
    isReady sampleDown = false ∧ isReady sampleUp = true
    ∧ metricFilter Metric.recoveryTimeMs
        (processDeployment 12500000000 sampleUp (Except.ok []) true (Except.ok [])
          (processDeployment 10000000000 sampleDown (Except.ok []) true
            (Except.ok []) emptyStore).1).2
        = [MetricIntent.setGauge Metric.recoveryTimeMs
            [sampleUp.ns, sampleUp.name] 2500]
    ∧ metricFilter Metric.downtimeDuration
        (processDeployment 12500000000 sampleUp (Except.ok []) true (Except.ok [])
          (processDeployment 10000000000 sampleDown (Except.ok []) true
            (Except.ok []) emptyStore).1).2
        = [MetricIntent.setGauge Metric.downtimeDuration
            [sampleUp.ns, sampleUp.name] (5 / 2)]
    ∧ metricFilter Metric.restartTotal
        (processDeployment 12500000000 sampleUp (Except.ok []) true (Except.ok [])
          (processDeployment 10000000000 sampleDown (Except.ok []) true
            (Except.ok []) emptyStore).1).2
        = [MetricIntent.incCounter Metric.restartTotal
            [sampleUp.ns, sampleUp.name]] := by
  obtain ⟨h1, h2, h3, h4, h5⟩ := recovery_roundtrip 10000000000 12500000000
    sampleDown sampleUp (Except.ok []) (Except.ok []) true true
    (Except.ok []) (Except.ok []) emptyStore rfl rfl rfl (by decide)
    (by decide) (by decide)
  refine ⟨by decide, by decide, ?_, ?_, ?_⟩
  · rw [h2]; norm_num
  · rw [h3]; norm_num
  · rw [h4]

lemma isRestartFor_metric (k : String) (i : MetricIntent)
    (h : isRestartFor k i = true) : intentMetric i = Metric.restartTotal := by
  cases i with
  | setGauge m l v => simp [isRestartFor] at h
  | incCounter m l =>
    simp only [isRestartFor, Bool.and_eq_true, decide_eq_true_eq] at h
    exact h.1

lemma filter_restart_of_mem (k : String) (l : List MetricIntent)
    (h : ∀ i ∈ l, ¬ intentMetric i = Metric.restartTotal) :
    l.filter (isRestartFor k) = [] := by
  refine List.filter_eq_nil_iff.mpr ?_
  intro i hi hr
  exact h i hi (isRestartFor_metric k i hr)

lemma processDeployment_restart_filter (k : String) (now : Nat) (d : Deployment)
    (pr : Except Unit (List Pod)) (ma : Bool)
    (pmr : Except Unit (List PodMetricItem)) (s : Store) :
    ((processDeployment now d pr ma pmr s).2).filter (isRestartFor k)
      = (if (deployKey d == k) && isReady d && (s.get (deployKey d)).isSome
         then [MetricIntent.incCounter Metric.restartTotal [d.ns, d.name]]
         else []) := by
  have hpre : (preIntents now d).filter (isRestartFor k) = [] := by
    refine filter_restart_of_mem k _ ?_
    intro i hi he
    have hp := pre_mem now d i hi
    rw [he] at hp
    cases hp
  have hrs : (collectResourceMetrics d.ns d.name pr ma pmr).filter (isRestartFor k) = [] := by
    refine filter_restart_of_mem k _ ?_
    intro i hi he
    have hp := collect_mem d.ns d.name pr ma pmr i hi
    rw [he] at hp
    cases hp
  have hcond : (conditionIntents d).filter (isRestartFor k) = [] := by
    refine filter_restart_of_mem k _ ?_
    intro i hi he
    rcases List.mem_map.mp hi with ⟨c, _, hc⟩
    subst hc
    simp [intentMetric] at he
  show ((preIntents now d
      ++ collectResourceMetrics d.ns d.name pr ma pmr
      ++ conditionIntents d ++ (statusStep now d s).2).filter (isRestartFor k)) = _
  rw [List.filter_append, List.filter_append, List.filter_append,
    hpre, hrs, hcond]
  simp only [List.nil_append]
  cases hr : isReady d <;> cases hg : s.get (deployKey d)
  · rw [statusStep_notready_none now d s hr hg]
    simp [isRestartFor, hr]
  · rw [statusStep_notready_some now d s _ hr hg]
    simp [isRestartFor, hr]
  · rw [statusStep_ready_none now d s hr hg]
    simp [isRestartFor, hg]
  · rw [statusStep_ready_some now d s _ hr hg]
    cases hb : (deployKey d == k)
    · simp [isRestartFor, List.filter_cons, hb, deployKey, hr, hg]
      intro hcontra
      rw [deployKey] at hb
      simp [hcontra] at hb
    · simp [isRestartFor, List.filter_cons, hb, hr, hg]
      rw [deployKey] at hb
      simp at hb
      simp [hb]

lemma runTrace_restart_count (k : String) (tr : List Obs) :
    ∀ s : Store,
      ((runTrace tr s).2.filter (isRestartFor k)).length
        = downUpCount ((s.get k).isSome)
            ((tr.filter (fun o => obsKey o == k)).map (fun o => isReady o.d)) := by
  induction tr with
  | nil => intro s; rfl
  | cons o rest ih =>
    intro s
    show (((processDeployment o.now o.d o.podsResult o.metricsAvailable
        o.podMetricsResult s).2
        ++ (runTrace rest (processDeployment o.now o.d o.podsResult
            o.metricsAvailable o.podMetricsResult s).1).2).filter
        (isRestartFor k)).length = _
    rw [List.filter_append, List.length_append,
      processDeployment_restart_filter, ih]
    have hgetnew : ((processDeployment o.now o.d o.podsResult o.metricsAvailable
        o.podMetricsResult s).1).get k
        = recordStep k (s.get k) (deployKey o.d) (isReady o.d) o.now := by
      rw [processDeployment_fst, statusStep_fst_get]
    rw [hgetnew]
    by_cases hk : deployKey o.d = k
    · have hb : (obsKey o == k) = true := by simp [obsKey, hk]
      rw [hk]
      simp only [List.filter_cons, hb, if_true, List.map_cons]
      rw [downUpCount]
      cases hr : isReady o.d
      · cases hgs : s.get k <;>
          simp [recordStep, hr, hgs, hb]
      · cases hgs : s.get k <;>
          simp [recordStep, hr, hgs, hb]
    · have hb : (obsKey o == k) = false := by simp [obsKey, hk]
      have hb2 : (deployKey o.d == k) = false := by simp [hk]
      simp [List.filter_cons, hb, hb2, recordStep]


/-- C4: a not-ready observation with no stored record writes exactly one
record (downSince = now) and the downtime-start gauge (value now in Unix
seconds); a not-ready observation during an ongoing outage leaves the
store untouched and writes none of the downtime-start, duration,
recovery, or restart metrics; and over any trace from the fresh store
the number of restart-counter bumps recorded for a key equals the number
of Down-to-Up transitions in that key's verdict sequence, however many
duplicate not-ready observations occur. -/
theorem notready_idempotent_and_recovery_count (now : Nat) (d : Deployment)
    (pr : Except Unit (List Pod)) (ma : Bool)
    (pmr : Except Unit (List PodMetricItem)) (s : Store) :
    (isReady d = false → s.get (deployKey d) = none →
      (processDeployment now d pr ma pmr s).1 = s.put (deployKey d) now
      ∧ metricFilter Metric.downtimeStart (processDeployment now d pr ma pmr s).2
          = [MetricIntent.setGauge Metric.downtimeStart [d.ns, d.name]
              ((unixSeconds now : Nat) : ℚ)])
    ∧ (∀ t0 : Nat, isReady d = false → s.get (deployKey d) = some t0 →
      (processDeployment now d pr ma pmr s).1 = s
      ∧ metricFilter Metric.downtimeStart (processDeployment now d pr ma pmr s).2 = []
      ∧ metricFilter Metric.downtimeDuration (processDeployment now d pr ma pmr s).2 = []
      ∧ metricFilter Metric.recoveryTimeMs (processDeployment now d pr ma pmr s).2 = []
      ∧ metricFilter Metric.restartTotal (processDeployment now d pr ma pmr s).2 = [])
    ∧ (∀ (trace : List Obs) (k : String),
        ((runTrace trace emptyStore).2.filter (isRestartFor k)).length
          = downUpCount false
              ((trace.filter (fun o => obsKey o == k)).map (fun o => isReady o.d))) := by
  refine ⟨?_, ?_, ?_⟩
  · intro hr hg
    constructor
    · rw [processDeployment_fst, statusStep_notready_none now d s hr hg]
    · rw [metricFilter_processDeployment,
        metricFilter_pre_ne Metric.downtimeStart rfl,
        metricFilter_collect Metric.downtimeStart rfl,
        metricFilter_conditions_ne Metric.downtimeStart d (by decide),
        statusStep_notready_none now d s hr hg]
      simp [metricFilter, intentMetric]
  · intro t0 hr hg
    refine ⟨?_, ?_, ?_, ?_, ?_⟩
    · rw [processDeployment_fst, statusStep_notready_some now d s t0 hr hg]
    · rw [metricFilter_processDeployment,
        metricFilter_pre_ne Metric.downtimeStart rfl,
        metricFilter_collect Metric.downtimeStart rfl,
        metricFilter_conditions_ne Metric.downtimeStart d (by decide),
        statusStep_notready_some now d s t0 hr hg]
      simp [metricFilter, intentMetric]
    · rw [metricFilter_processDeployment,
        metricFilter_pre_ne Metric.downtimeDuration rfl,
        metricFilter_collect Metric.downtimeDuration rfl,
        metricFilter_conditions_ne Metric.downtimeDuration d (by decide),
        statusStep_notready_some now d s t0 hr hg]
      simp [metricFilter, intentMetric]
    · rw [metricFilter_processDeployment,
        metricFilter_pre_ne Metric.recoveryTimeMs rfl,
        metricFilter_collect Metric.recoveryTimeMs rfl,
        metricFilter_conditions_ne Metric.recoveryTimeMs d (by decide),
        statusStep_notready_some now d s t0 hr hg]
      simp [metricFilter, intentMetric]
    · rw [metricFilter_processDeployment,
        metricFilter_pre_ne Metric.restartTotal rfl,
        metricFilter_collect Metric.restartTotal rfl,
        metricFilter_conditions_ne Metric.restartTotal d (by decide),
        statusStep_notready_some now d s t0 hr hg]
      simp [metricFilter, intentMetric]
  · intro trace k
    exact runTrace_restart_count k trace emptyStore

/-- C4 witness: a first not-ready observation of the sample entity at 7s
creates the record and writes downtime-start 7; a second not-ready
observation at 8s leaves the store unchanged and writes no
downtime-start, duration, recovery, or restart metric. -/
theorem notready_idempotent_and_recovery_count_witness :
    isReady sampleDown = false
    ∧ (processDeployment 7000000000 sampleDown (Except.ok []) true
        (Except.ok []) emptyStore).1
        = emptyStore.put (deployKey sampleDown) 7000000000
    ∧ metricFilter Metric.downtimeStart
        (processDeployment 7000000000 sampleDown (Except.ok []) true
          (Except.ok []) emptyStore).2
        = [MetricIntent.setGauge Metric.downtimeStart
            [sampleDown.ns, sampleDown.name] 7]
    ∧ (processDeployment 8000000000 sampleDown (Except.ok []) true
        (Except.ok []) (emptyStore.put (deployKey sampleDown) 7000000000)).1
        = emptyStore.put (deployKey sampleDown) 7000000000
    ∧ metricFilter Metric.downtimeStart
        (processDeployment 8000000000 sampleDown (Except.ok []) true
          (Except.ok []) (emptyStore.put (deployKey sampleDown) 7000000000)).2
        = []
    ∧ metricFilter Metric.restartTotal
        (processDeployment 8000000000 sampleDown (Except.ok []) true
          (Except.ok []) (emptyStore.put (deployKey sampleDown) 7000000000)).2
        = [] := by
  obtain ⟨ha1, ha2⟩ := (notready_idempotent_and_recovery_count 7000000000
    sampleDown (Except.ok []) true (Except.ok []) emptyStore).1
    (by decide) rfl
  obtain ⟨hb1, hb2, _, _, hb5⟩ := (notready_idempotent_and_recovery_count
    8000000000 sampleDown (Except.ok []) true (Except.ok [])
    (emptyStore.put (deployKey sampleDown) 7000000000)).2.1
    7000000000 (by decide) (by decide)
  refine ⟨by decide, ha1, ?_, hb1, hb2, hb5⟩
  rw [ha2]
  norm_num [unixSeconds]

/-- C5 exhibit: the tracker map is shared by the watch and poll
goroutines with no mutex, so the check-then-act of the not-ready branch
can interleave as read, read, write, write.  Both reads see no record,
so both commits fire: two downtime-start gauge writes are emitted for
one outage, and the second write overwrites the first record's
downSince (10s is lost, replaced by 20s), the lost update the claim
rules out. -/
theorem race_lost_update_two_start_events :
    downtimeCheck emptyStore (deployKey sampleDown) = true
    ∧ ((downtimeCommit emptyStore sampleDown.ns sampleDown.name 10000000000
          (downtimeCheck emptyStore (deployKey sampleDown))).2
        ++ (downtimeCommit
              (downtimeCommit emptyStore sampleDown.ns sampleDown.name
                10000000000
                (downtimeCheck emptyStore (deployKey sampleDown))).1
              sampleDown.ns sampleDown.name 20000000000
              (downtimeCheck emptyStore (deployKey sampleDown))).2).length = 2
    ∧ ((downtimeCommit
          (downtimeCommit emptyStore sampleDown.ns sampleDown.name 10000000000
            (downtimeCheck emptyStore (deployKey sampleDown))).1
          sampleDown.ns sampleDown.name 20000000000
          (downtimeCheck emptyStore (deployKey sampleDown))).1).get
        (deployKey sampleDown) = some 20000000000 := by
  decide

/-- C6 counterexample: with a nil `Spec.Replicas` pointer the
desired-replica gauge and the availability-ratio gauge are not emitted
at all, refuting the claim that every replica-count gauge and the ratio
gauge are always emitted even when the desired count is unset. -/
theorem desired_gauge_missing_when_unset :
    sampleNoSpec.specReplicas = none
    ∧ metricFilter Metric.replicasDesired
        (processDeployment 1000000000 sampleNoSpec (Except.ok []) true
          (Except.ok []) emptyStore).2 = []
    ∧ metricFilter Metric.availability
        (processDeployment 1000000000 sampleNoSpec (Except.ok []) true
          (Except.ok []) emptyStore).2 = [] := by
  decide

/-- C6 as amended: on every call the heartbeat, metadata, and the
ready/available/unavailable/updated replica gauges are written exactly
once, and one condition gauge per condition entry (True to 1, False to
0, anything else to -1); the desired-replica gauge and the
availability-ratio gauge are written iff `Spec.Replicas` is non-nil,
the ratio valued ready/desired when desired is positive and 0
otherwise, with the literal ready and desired counts as labels. -/
theorem always_emitted_gauges (now : Nat) (d : Deployment)
    (pr : Except Unit (List Pod)) (ma : Bool)
    (pmr : Except Unit (List PodMetricItem)) (s : Store) :
    metricFilter Metric.heartbeat (processDeployment now d pr ma pmr s).2
      = [MetricIntent.setGauge Metric.heartbeat [d.ns, d.name]
          ((unixSeconds now : Nat) : ℚ)]
    ∧ metricFilter Metric.creationTime (processDeployment now d pr ma pmr s).2
      = [MetricIntent.setGauge Metric.creationTime [d.ns, d.name]
          (d.creationUnix : ℚ)]
    ∧ metricFilter Metric.generation (processDeployment now d pr ma pmr s).2
      = [MetricIntent.setGauge Metric.generation [d.ns, d.name]
          (d.generation : ℚ)]
    ∧ metricFilter Metric.observedGeneration
        (processDeployment now d pr ma pmr s).2
      = [MetricIntent.setGauge Metric.observedGeneration [d.ns, d.name]
          (d.observedGeneration : ℚ)]
    ∧ metricFilter Metric.replicasReady (processDeployment now d pr ma pmr s).2
      = [MetricIntent.setGauge Metric.replicasReady [d.ns, d.name]
          (d.readyReplicas : ℚ)]
    ∧ metricFilter Metric.replicasAvailable
        (processDeployment now d pr ma pmr s).2
      = [MetricIntent.setGauge Metric.replicasAvailable [d.ns, d.name]
          (d.availableReplicas : ℚ)]
    ∧ metricFilter Metric.replicasUnavailable
        (processDeployment now d pr ma pmr s).2
      = [MetricIntent.setGauge Metric.replicasUnavailable [d.ns, d.name]
          (d.unavailableReplicas : ℚ)]
    ∧ metricFilter Metric.replicasUpdated
        (processDeployment now d pr ma pmr s).2
      = [MetricIntent.setGauge Metric.replicasUpdated [d.ns, d.name]
          (d.updatedReplicas : ℚ)]
    ∧ metricFilter Metric.conditionStatus
        (processDeployment now d pr ma pmr s).2
      = conditionIntents d
    ∧ metricFilter Metric.replicasDesired
        (processDeployment now d pr ma pmr s).2
      = (match d.specReplicas with
         | some r => [MetricIntent.setGauge Metric.replicasDesired
             [d.ns, d.name] (r : ℚ)]
         | none => [])
    ∧ metricFilter Metric.availability
        (processDeployment now d pr ma pmr s).2
      = (match d.specReplicas with
         | some r => [MetricIntent.setGauge Metric.availability
             [d.ns, d.name, toString d.readyReplicas, toString r]
             (if 0 < r then (d.readyReplicas : ℚ) / (r : ℚ) else 0)]
         | none => []) := by
  refine ⟨?_, ?_, ?_, ?_, ?_, ?_, ?_, ?_, ?_, ?_, ?_⟩ <;>
    rw [metricFilter_processDeployment]
  · rw [metricFilter_collect Metric.heartbeat rfl,
      metricFilter_conditions_ne Metric.heartbeat d (by decide),
      metricFilter_statusStep_ne Metric.heartbeat rfl]
    rcases hd : d.specReplicas with _ | r <;>
      simp [preIntents, hd, metricFilter, intentMetric]
  · rw [metricFilter_collect Metric.creationTime rfl,
      metricFilter_conditions_ne Metric.creationTime d (by decide),
      metricFilter_statusStep_ne Metric.creationTime rfl]
    rcases hd : d.specReplicas with _ | r <;>
      simp [preIntents, hd, metricFilter, intentMetric]
  · rw [metricFilter_collect Metric.generation rfl,
      metricFilter_conditions_ne Metric.generation d (by decide),
      metricFilter_statusStep_ne Metric.generation rfl]
    rcases hd : d.specReplicas with _ | r <;>
      simp [preIntents, hd, metricFilter, intentMetric]
  · rw [metricFilter_collect Metric.observedGeneration rfl,
      metricFilter_conditions_ne Metric.observedGeneration d (by decide),
      metricFilter_statusStep_ne Metric.observedGeneration rfl]
    rcases hd : d.specReplicas with _ | r <;>
      simp [preIntents, hd, metricFilter, intentMetric]
  · rw [metricFilter_collect Metric.replicasReady rfl,
      metricFilter_conditions_ne Metric.replicasReady d (by decide),
      metricFilter_statusStep_ne Metric.replicasReady rfl]
    rcases hd : d.specReplicas with _ | r <;>
      simp [preIntents, hd, metricFilter, intentMetric]
  · rw [metricFilter_collect Metric.replicasAvailable rfl,
      metricFilter_conditions_ne Metric.replicasAvailable d (by decide),
      metricFilter_statusStep_ne Metric.replicasAvailable rfl]
    rcases hd : d.specReplicas with _ | r <;>
      simp [preIntents, hd, metricFilter, intentMetric]
  · rw [metricFilter_collect Metric.replicasUnavailable rfl,
      metricFilter_conditions_ne Metric.replicasUnavailable d (by decide),
      metricFilter_statusStep_ne Metric.replicasUnavailable rfl]
    rcases hd : d.specReplicas with _ | r <;>
      simp [preIntents, hd, metricFilter, intentMetric]
  · rw [metricFilter_collect Metric.replicasUpdated rfl,
      metricFilter_conditions_ne Metric.replicasUpdated d (by decide),
      metricFilter_statusStep_ne Metric.replicasUpdated rfl]
    rcases hd : d.specReplicas with _ | r <;>
      simp [preIntents, hd, metricFilter, intentMetric]
  · rw [metricFilter_collect Metric.conditionStatus rfl,
      metricFilter_conditions_self d,
      metricFilter_statusStep_ne Metric.conditionStatus rfl,
      metricFilter_pre_ne Metric.conditionStatus rfl]
    simp
  · rw [metricFilter_collect Metric.replicasDesired rfl,
      metricFilter_conditions_ne Metric.replicasDesired d (by decide),
      metricFilter_statusStep_ne Metric.replicasDesired rfl]
    rcases hd : d.specReplicas with _ | r <;>
      simp [preIntents, hd, metricFilter, intentMetric]
  · rw [metricFilter_collect Metric.availability rfl,
      metricFilter_conditions_ne Metric.availability d (by decide),
      metricFilter_statusStep_ne Metric.availability rfl]
    rcases hd : d.specReplicas with _ | r <;>
      simp [preIntents, hd, metricFilter, intentMetric]

lemma watchEvents_stop_at_error (post : List WatchEvent) (l : List WatchEvent) :
    ∀ s : Store,
      watchEvents (l.takeWhile (fun e => !(isErrorEvent e))
          ++ (WatchEvent.errorEvent :: post)) s
        = watchEvents (l.takeWhile (fun e => !(isErrorEvent e))) s := by
  induction l with
  | nil => intro s; rfl
  | cons e l ih =>
    intro s
    cases e with
    | errorEvent => rfl
    | badObject =>
      have hp : (WatchEvent.badObject :: l).takeWhile (fun e => !(isErrorEvent e))
          = WatchEvent.badObject :: l.takeWhile (fun e => !(isErrorEvent e)) := rfl
      rw [hp, List.cons_append]
      show watchEvents (l.takeWhile (fun e => !(isErrorEvent e))
          ++ (WatchEvent.errorEvent :: post)) s
        = watchEvents (l.takeWhile (fun e => !(isErrorEvent e))) s
      exact ih s
    | deployEvent o =>
      have hp : (WatchEvent.deployEvent o :: l).takeWhile (fun e => !(isErrorEvent e))
          = WatchEvent.deployEvent o :: l.takeWhile (fun e => !(isErrorEvent e)) := rfl
      rw [hp, List.cons_append]
      simp only [watchEvents]
      rw [ih]

/-- C7: no iteration of the watch loop terminates it: a failed watch
call yields a retry after the fixed 5-second backoff, and an exhausted
or erroring event stream likewise yields a retry after the same fixed 5
seconds, with no backoff growth; moreover events after an error event
are abandoned (processing a stream that errors equals processing only
its error-free prefix). -/
theorem watch_loop_never_terminates_fixed_backoff (openOk : Bool)
    (events : List WatchEvent) (s : Store) :
    (watchIteration openOk events s).2.2 = LoopOutcome.retryAfter 5
    ∧ (∀ (l post : List WatchEvent) (s2 : Store),
        watchEvents (l.takeWhile (fun e => !(isErrorEvent e))
            ++ (WatchEvent.errorEvent :: post)) s2
          = watchEvents (l.takeWhile (fun e => !(isErrorEvent e))) s2) := by
  refine ⟨?_, fun l post s2 => watchEvents_stop_at_error post l s2⟩
  cases openOk <;> simp [watchIteration]

lemma heartbeat_mem_process (now : Nat) (d : Deployment)
    (pr : Except Unit (List Pod)) (ma : Bool)
    (pmr : Except Unit (List PodMetricItem)) (s : Store) :
    MetricIntent.setGauge Metric.heartbeat [d.ns, d.name]
        ((unixSeconds now : Nat) : ℚ) ∈ (processDeployment now d pr ma pmr s).2 := by
  have h1 : MetricIntent.setGauge Metric.heartbeat [d.ns, d.name]
      ((unixSeconds now : Nat) : ℚ) ∈ preIntents now d := by
    rcases hd : d.specReplicas with _ | r <;> simp [preIntents, hd]
  exact List.mem_append_left _ (List.mem_append_left _ (List.mem_append_left _ h1))

lemma heartbeat_mem_runTrace (o : Obs) (items : List Obs) (h : o ∈ items) :
    ∀ s : Store,
      MetricIntent.setGauge Metric.heartbeat [o.d.ns, o.d.name]
        ((unixSeconds o.now : Nat) : ℚ) ∈ (runTrace items s).2 := by
  induction items with
  | nil => cases h
  | cons a l ih =>
    intro s
    rcases List.mem_cons.mp h with ha | hl
    · subst ha
      exact List.mem_append_left _ (heartbeat_mem_process o.now o.d o.podsResult
        o.metricsAvailable o.podMetricsResult s)
    · exact List.mem_append_right _ (ih hl _)

/-- C8: a poll tick whose deployment-list call fails logs the error,
makes no transition-engine call (no intents), leaves the store
untouched, and the ticker fires again after the same fixed interval; a
successful tick processes every listed deployment in order, and in
particular writes the heartbeat gauge of each listed entity. -/
theorem poll_tick_error_skips_success_processes_all (interval : Nat) (s : Store) :
    (∀ e : Unit, pollTick interval (Except.error e) s
        = ⟨s, [], true, interval⟩)
    ∧ (∀ items : List Obs,
        pollTick interval (Except.ok items) s
          = ⟨(runTrace items s).1, (runTrace items s).2, false, interval⟩)
    ∧ (∀ (items : List Obs) (o : Obs), o ∈ items →
        MetricIntent.setGauge Metric.heartbeat [o.d.ns, o.d.name]
            ((unixSeconds o.now : Nat) : ℚ)
          ∈ (pollTick interval (Except.ok items) s).intents) := by
  refine ⟨fun e => rfl, fun items => rfl, ?_⟩
  intro items o h
  exact heartbeat_mem_runTrace o items h s

/-- C8 witness: a failing tick at interval 15 changes nothing and logs;
a successful tick over a one-element listing emits that entity's
heartbeat gauge. -/
theorem poll_tick_error_skips_witness :
    pollTick 15 (Except.error ()) emptyStore = ⟨emptyStore, [], true, 15⟩
    ∧ MetricIntent.setGauge Metric.heartbeat [sampleUp.ns, sampleUp.name]
        ((unixSeconds 1000000000 : Nat) : ℚ)
      ∈ (pollTick 15
          (Except.ok [⟨1000000000, sampleUp, Except.ok [], true, Except.ok []⟩])
          emptyStore).intents := by
  refine ⟨(poll_tick_error_skips_success_processes_all 15 emptyStore).1 (), ?_⟩
  exact (poll_tick_error_skips_success_processes_all 15 emptyStore).2.2
    [⟨1000000000, sampleUp, Except.ok [], true, Except.ok []⟩]
    ⟨1000000000, sampleUp, Except.ok [], true, Except.ok []⟩
    (List.mem_singleton.mpr rfl)

/-- C9: the usage-as-percent-of-request gauges are written only behind
the positivity guards: CPU percent exactly when the summed CPU request
is positive, memory percent exactly when the summed memory request is
positive, and never when the pod list or metrics list is unavailable,
so a zero request total never reaches the division. -/
theorem usage_percent_guarded (ns name : String)
    (pr : Except Unit (List Pod)) (ma : Bool)
    (pmr : Except Unit (List PodMetricItem)) :
    metricFilter Metric.cpuUsagePercent (collectResourceMetrics ns name pr ma pmr)
      = (match pr, ma, pmr with
         | Except.ok pods, true, Except.ok pms =>
           if 0 < sumCpuRequests pods
           then [MetricIntent.setGauge Metric.cpuUsagePercent [ns, name]
               ((sumCpuUsage pms : ℚ) / (sumCpuRequests pods : ℚ) * 100)]
           else []
         | _, _, _ => [])
    ∧ metricFilter Metric.memoryUsagePercent
        (collectResourceMetrics ns name pr ma pmr)
      = (match pr, ma, pmr with
         | Except.ok pods, true, Except.ok pms =>
           if 0 < sumMemRequests pods
           then [MetricIntent.setGauge Metric.memoryUsagePercent [ns, name]
               ((sumMemUsage pms : ℚ) / (sumMemRequests pods : ℚ) * 100)]
           else []
         | _, _, _ => []) := by
  constructor
  · cases pr with
    | error e => rfl
    | ok pods =>
      cases ma with
      | false => simp [collectResourceMetrics, metricFilter, intentMetric]
      | true =>
        cases pmr with
        | error e => simp [collectResourceMetrics, metricFilter, intentMetric]
        | ok pms =>
          by_cases h1 : 0 < sumCpuRequests pods <;>
            by_cases h2 : 0 < sumMemRequests pods <;>
            simp [collectResourceMetrics, metricFilter, intentMetric,
              List.filter_append, h1, h2]
  · cases pr with
    | error e => rfl
    | ok pods =>
      cases ma with
      | false => simp [collectResourceMetrics, metricFilter, intentMetric]
      | true =>
        cases pmr with
        | error e => simp [collectResourceMetrics, metricFilter, intentMetric]
        | ok pms =>
          by_cases h1 : 0 < sumCpuRequests pods <;>
            by_cases h2 : 0 < sumMemRequests pods <;>
            simp [collectResourceMetrics, metricFilter, intentMetric,
              List.filter_append, h1, h2]

lemma sink_find_filter_other (l : List ((Metric × List String) × ℚ))
    (k1 k2 : Metric × List String) (h : k2 ≠ k1) :
    (l.filter fun c => c.1 != k1).find? (fun c => c.1 == k2)
      = l.find? (fun c => c.1 == k2) := by
  have hkk2 : (k1 == k2) = false :=
    beq_eq_false_iff_ne.mpr (fun hh => h hh.symm)
  induction l with
  | nil => rfl
  | cons a l ih =>
    by_cases ha : a.1 = k1
    · have hk2 : (a.1 == k2) = false := by
        simp [ha]
        exact fun hh => h hh.symm
      simp [List.filter_cons, ha, List.find?_cons, hk2, hkk2, ih]
    · by_cases hb : a.1 = k2
      · simp [List.filter_cons, ha, List.find?_cons, hb, h]
      · simp [List.filter_cons, ha, List.find?_cons, hb, ih]

lemma sinkValue_applyIntent_ne (st : SinkState) (i : MetricIntent)
    (m : Metric) (labels : List String) (h : ¬ intentMetric i = m) :
    sinkValue (applyIntent st i) m labels = sinkValue st m labels := by
  cases i with
  | setGauge m0 l0 v =>
    have hm0 : ¬ m0 = m := h
    have hne : (m, labels) ≠ (m0, l0) := fun he => hm0 (by
      injection he with h1 h2
      rw [h1])
    have hhd : ((m0, l0) == (m, labels)) = false :=
      beq_eq_false_iff_ne.mpr (fun he => hm0 (congrArg Prod.fst he))
    simp [applyIntent, sinkValue, List.find?_cons, hhd,
      sink_find_filter_other st.cells (m0, l0) (m, labels) hne]
  | incCounter m0 l0 =>
    have hm0 : ¬ m0 = m := h
    have hne : (m, labels) ≠ (m0, l0) := fun he => hm0 (by
      injection he with h1 h2
      rw [h1])
    have hhd : ((m0, l0) == (m, labels)) = false :=
      beq_eq_false_iff_ne.mpr (fun he => hm0 (congrArg Prod.fst he))
    cases hf : (st.cells.find? fun c => c.1 == (m0, l0)).map Prod.snd with
    | none =>
      simp [applyIntent, sinkValue, hf, List.find?_cons, hhd,
        sink_find_filter_other st.cells (m0, l0) (m, labels) hne]
    | some v =>
      simp [applyIntent, sinkValue, hf, List.find?_cons, hhd,
        sink_find_filter_other st.cells (m0, l0) (m, labels) hne]

lemma sinkValue_applyIntents_ne (l : List MetricIntent) (m : Metric)
    (labels : List String) :
    ∀ st : SinkState, (∀ i ∈ l, ¬ intentMetric i = m) →
      sinkValue (applyIntents st l) m labels = sinkValue st m labels := by
  induction l with
  | nil => intro st _; rfl
  | cons i l ih =>
    intro st h
    show sinkValue (applyIntents (applyIntent st i) l) m labels = _
    rw [ih (applyIntent st i) (fun j hj => h j (List.mem_cons_of_mem i hj)),
      sinkValue_applyIntent_ne st i m labels (h i (List.mem_cons_self i l))]

lemma resource_not_pre (m : Metric) (hm : isResourceMetric m = true) :
    isPreMetric m = false := by
  cases m <;> simp_all [isResourceMetric, isPreMetric]

lemma resource_not_statusSide (m : Metric) (hm : isResourceMetric m = true) :
    isStatusSideMetric m = false := by
  cases m <;> simp_all [isResourceMetric, isStatusSideMetric]

lemma resource_ne_condition (m : Metric) (hm : isResourceMetric m = true) :
    ¬ Metric.conditionStatus = m := by
  cases m <;> simp_all [isResourceMetric]

lemma processDeployment_error_no_resource (now : Nat) (d : Deployment)
    (e : Unit) (ma : Bool) (pmr : Except Unit (List PodMetricItem)) (s : Store)
    (m : Metric) (hm : isResourceMetric m = true) :
    ∀ i ∈ (processDeployment now d (Except.error e) ma pmr s).2,
      ¬ intentMetric i = m := by
  intro i hi he
  have hi2 : i ∈ ((preIntents now d
      ++ collectResourceMetrics d.ns d.name (Except.error e) ma pmr)
      ++ conditionIntents d) ++ (statusStep now d s).2 := hi
  rcases List.mem_append.mp hi2 with h1 | h1
  · rcases List.mem_append.mp h1 with h2 | h2
    · rcases List.mem_append.mp h2 with h3 | h3
      · have hp := pre_mem now d i h3
        rw [he, resource_not_pre m hm] at hp
        cases hp
      · simp [collectResourceMetrics] at h3
    · rcases List.mem_map.mp h2 with ⟨c, _, hc⟩
      subst hc
      rw [intentMetric] at he
      exact resource_ne_condition m hm he
  · have hp := statusStep_mem now d s i h1
    rw [he, resource_not_statusSide m hm] at hp
    cases hp

/-- C10: when the pod-list call fails, `collectResourceMetrics` returns
before any resource write, so the call emits no resource intent at all
(request and limit gauges included); the sink cells of every resource
metric keep their previous values; and all non-resource metrics of the
deployment are still emitted, the output being precisely the
unconditional gauges, the condition gauges, and the status/downtime
tail. -/
theorem podlist_failure_resource_frame (now : Nat) (d : Deployment) (e : Unit)
    (ma : Bool) (pmr : Except Unit (List PodMetricItem)) (s : Store) :
    collectResourceMetrics d.ns d.name (Except.error e) ma pmr = []
    ∧ (processDeployment now d (Except.error e) ma pmr s).2
        = preIntents now d ++ conditionIntents d ++ (statusStep now d s).2
    ∧ (∀ (sink : SinkState) (labels : List String) (m : Metric),
        isResourceMetric m = true →
        sinkValue (applyIntents sink
            (processDeployment now d (Except.error e) ma pmr s).2) m labels
          = sinkValue sink m labels) := by
  refine ⟨rfl, ?_, ?_⟩
  · show ((preIntents now d
        ++ collectResourceMetrics d.ns d.name (Except.error e) ma pmr)
        ++ conditionIntents d) ++ (statusStep now d s).2 = _
    simp [collectResourceMetrics]
  · intro sink labels m hm
    exact sinkValue_applyIntents_ne _ m labels sink
      (processDeployment_error_no_resource now d e ma pmr s m hm)

/-- C10 witness: with a pod-list failure, a previously recorded CPU
request gauge of 5 for the sample entity is untouched by the call. -/
theorem podlist_failure_resource_frame_witness :
    sinkValue (applyIntents
        ⟨[((Metric.cpuRequest, [sampleUp.ns, sampleUp.name]), 5)]⟩
        (processDeployment 1000000000 sampleUp (Except.error ()) true
          (Except.ok []) emptyStore).2)
      Metric.cpuRequest [sampleUp.ns, sampleUp.name] = some 5 := by
  have h := (podlist_failure_resource_frame 1000000000 sampleUp () true
    (Except.ok []) emptyStore).2.2
    ⟨[((Metric.cpuRequest, [sampleUp.ns, sampleUp.name]), 5)]⟩
    [sampleUp.ns, sampleUp.name] Metric.cpuRequest rfl
  rw [h]
  decide

end DeploymentExporter
